import Mathlib

/-!
Shallow embedding of the audio-effect core of the Fyrox repository:
`fyrox-sound/src/effects/mod.rs` (the `Attenuate` effect, the closed `Effect`
tagged union with its `static_dispatch!` render, and the transparent
`EffectWrapper`) together with `editor/src/settings/debugging.rs`
(`DebuggingSettings`).

Modelling conventions:
* Rust `f32` sample values and gains are modelled as exact rationals (`ℚ`);
  arithmetic is exact (no rounding, no NaN/Inf values).
* A stereo sample frame `(f32, f32)` is `Frame := ℚ × ℚ`.
* `&mut self` methods are translated to explicit state passing:
  `fn render(&mut self, input, output)` becomes a function returning the
  updated effect value together with the rewritten output buffer, and
  `fn visit(&mut self, name, visitor) -> VisitResult` returns the updated
  value, the updated visitor and the result.
* The slice iteration `input.iter().zip(output.iter_mut())` becomes structural
  recursion over the two lists: it stops at the shorter list and leaves the
  remaining tail of `output` unchanged.
* The payload types of the seven non-Attenuate `Effect` variants (`Reverb` and
  the six filters) are declared in `effects/filter.rs` and `effects/reverb.rs`,
  which are not among the given sources; they are abstracted as type
  parameters, each equipped with an `EffectRenderTrait` instance, which is
  exactly what the dispatch code assumes about them.
-/

/-- One stereo sample frame `(left, right)`, Rust `(f32, f32)`. -/
abbrev Frame := ℚ × ℚ

/-- `pub struct Attenuate { gain: f32 }` — the attenuation effect. -/
structure Attenuate where
  gain : ℚ
deriving DecidableEq

/-- `impl Default for Attenuate`: `Self { gain: 1.0 }`. -/
def Attenuate.default : Attenuate := { gain := 1 }

/-- `Attenuate::new(gain)`: stores `gain.max(0.0)`, clamping negative input to zero. -/
def Attenuate.new (gain : ℚ) : Attenuate := { gain := max gain 0 }

/-- Modelled from the spec: a gain setter for `Attenuate` is not among the given
sources (only `Attenuate::new` is); the spec states the gain is "mutated only by
a setter that re-clamps", so the setter clamps exactly as `Attenuate::new` does. -/
def Attenuate.set_gain (a : Attenuate) (gain : ℚ) : Attenuate := { a with gain := max gain 0 }

/-- The loop body of `<Attenuate as EffectRenderTrait>::render`: zip the input
with the output buffer and overwrite each paired output frame with the input
frame scaled by `gain`; output frames beyond the zip length keep their previous
value, and iteration stops when either buffer is exhausted. -/
def Attenuate.renderBuf (a : Attenuate) : List Frame → List Frame → List Frame
  | [], os => os
  | _ :: _, [] => []
  | (il, ir) :: irest, _ :: os => (il * a.gain, ir * a.gain) :: Attenuate.renderBuf a irest os

/-- `<Attenuate as EffectRenderTrait>::render` in state-passing form: the body
never assigns to `self`, so the returned effect value is the argument itself,
paired with the rewritten output buffer. -/
def Attenuate.render (a : Attenuate) (input output : List Frame) : Attenuate × List Frame :=
  (a, a.renderBuf input output)

/-- Rust trait `EffectRenderTrait` (`fn render(&mut self, input: &[(f32, f32)],
output: &mut [(f32, f32)])`) in state-passing form. -/
class EffectRenderTrait (α : Type) where
  render : α → List Frame → List Frame → α × List Frame

/-- `impl EffectRenderTrait for Attenuate`. -/
instance instRenderAttenuate : EffectRenderTrait Attenuate := ⟨Attenuate.render⟩

/-- The closed `pub enum Effect` tagged union, one case per effect kind.
The payload types of the seven non-Attenuate variants are abstracted as type
parameters (their definitions are in `effects/filter.rs` and
`effects/reverb.rs`, not among the given sources). -/
inductive Effect (ρ lp hp bp ap ls hs : Type) where
  | Attenuate (v : Attenuate)
  | Reverb (v : ρ)
  | LowPassFilter (v : lp)
  | HighPassFilter (v : hp)
  | BandPassFilter (v : bp)
  | AllPassFilter (v : ap)
  | LowShelfFilter (v : ls)
  | HighShelfFilter (v : hs)

/-- `impl Default for Effect`: `Effect::Attenuate(Default::default())`. -/
def Effect.default {ρ lp hp bp ap ls hs : Type} : Effect ρ lp hp bp ap ls hs :=
  Effect.Attenuate Attenuate.default

/-- `impl EffectRenderTrait for Effect`: the expansion of the
`static_dispatch!` macro, an exhaustive match over all eight variants
forwarding to the payload value's own `render`. -/
def Effect.render {ρ lp hp bp ap ls hs : Type} [EffectRenderTrait ρ] [EffectRenderTrait lp]
    [EffectRenderTrait hp] [EffectRenderTrait bp] [EffectRenderTrait ap] [EffectRenderTrait ls]
    [EffectRenderTrait hs] :
    Effect ρ lp hp bp ap ls hs → List Frame → List Frame → Effect ρ lp hp bp ap ls hs × List Frame
  | Effect.Attenuate v, input, output =>
      (Effect.Attenuate (EffectRenderTrait.render v input output).1,
       (EffectRenderTrait.render v input output).2)
  | Effect.Reverb v, input, output =>
      (Effect.Reverb (EffectRenderTrait.render v input output).1,
       (EffectRenderTrait.render v input output).2)
  | Effect.LowPassFilter v, input, output =>
      (Effect.LowPassFilter (EffectRenderTrait.render v input output).1,
       (EffectRenderTrait.render v input output).2)
  | Effect.HighPassFilter v, input, output =>
      (Effect.HighPassFilter (EffectRenderTrait.render v input output).1,
       (EffectRenderTrait.render v input output).2)
  | Effect.BandPassFilter v, input, output =>
      (Effect.BandPassFilter (EffectRenderTrait.render v input output).1,
       (EffectRenderTrait.render v input output).2)
  | Effect.AllPassFilter v, input, output =>
      (Effect.AllPassFilter (EffectRenderTrait.render v input output).1,
       (EffectRenderTrait.render v input output).2)
  | Effect.LowShelfFilter v, input, output =>
      (Effect.LowShelfFilter (EffectRenderTrait.render v input output).1,
       (EffectRenderTrait.render v input output).2)
  | Effect.HighShelfFilter v, input, output =>
      (Effect.HighShelfFilter (EffectRenderTrait.render v input output).1,
       (EffectRenderTrait.render v input output).2)

/-- `pub struct EffectWrapper(pub Effect)` — a transparent wrapper holding one
`Effect` by value (its single positional field `0` is named `eff` here). -/
structure EffectWrapper (ρ lp hp bp ap ls hs : Type) where
  eff : Effect ρ lp hp bp ap ls hs

/-- Rust trait `Visit` (`fn visit(&mut self, name: &str, visitor: &mut Visitor)
-> VisitResult`) in state-passing form. The visitor state type `V` and the
result type `R` are abstract, since the `fyrox_core` visitor machinery is not
among the given sources. -/
class Visit (V R : Type) (α : Type) where
  visit : α → String → V → α × V × R

/-- `impl Visit for EffectWrapper`: the body is exactly
`self.0.visit(name, visitor)` — full delegation to the wrapped `Effect`'s own
visit under the same name key. -/
def EffectWrapper.visit {V R ρ lp hp bp ap ls hs : Type} [Visit V R (Effect ρ lp hp bp ap ls hs)]
    (w : EffectWrapper ρ lp hp bp ap ls hs) (name : String) (visitor : V) :
    EffectWrapper ρ lp hp bp ap ls hs × V × R :=
  (EffectWrapper.mk (Visit.visit (R := R) w.eff name visitor).1,
   (Visit.visit (R := R) w.eff name visitor).2)

/-- Modelled from the spec: the derived `Visit` load for `Attenuate` (the derive
expansion and the visitor machinery are not among the given sources). Per the
spec, a named-field visit reads each field from the saved node tree, mutating
the field in place, and a field absent from older saved data defaults rather
than failing: an absent field keeps the value the target already holds (its
default value when loading into a default-constructed target). -/
def Attenuate.loadFrom (a : Attenuate) (savedGain : Option ℚ) : Attenuate :=
  { a with gain := savedGain.getD a.gain }

/-- `pub struct DebuggingSettings` from `editor/src/settings/debugging.rs`,
with `f32` modelled as `ℚ`. The fields `show_light_bounds`,
`show_camera_bounds` and `pictogram_size` carry `#[serde(default)]` in the
source. -/
structure DebuggingSettings where
  show_physics : Bool
  show_bounds : Bool
  show_tbn : Bool
  show_light_bounds : Bool
  show_camera_bounds : Bool
  pictogram_size : ℚ
deriving DecidableEq

/-- `impl Default for DebuggingSettings`. -/
def DebuggingSettings.default : DebuggingSettings :=
  { show_physics := true, show_bounds := true, show_tbn := false,
    show_light_bounds := true, show_camera_bounds := true, pictogram_size := 33 / 100 }

/-- Saved form of `DebuggingSettings`: each field is either present with a
value or absent (as in data saved by an older version lacking the field). -/
structure DebuggingSettingsData where
  show_physics : Option Bool
  show_bounds : Option Bool
  show_tbn : Option Bool
  show_light_bounds : Option Bool
  show_camera_bounds : Option Bool
  pictogram_size : Option ℚ

/-- Modelled from the spec: serde deserialization of `DebuggingSettings` (serde
itself is external code; only the derive attributes are in the source). A field
marked `#[serde(default)]` (`show_light_bounds`, `show_camera_bounds`,
`pictogram_size`) takes the default value of its type when absent; an unmarked
field must be present, otherwise the load fails. -/
def DebuggingSettings.deserialize (d : DebuggingSettingsData) : Option DebuggingSettings := do
  let sp ← d.show_physics
  let sb ← d.show_bounds
  let st ← d.show_tbn
  some { show_physics := sp, show_bounds := sb, show_tbn := st,
         show_light_bounds := d.show_light_bounds.getD false,
         show_camera_bounds := d.show_camera_bounds.getD false,
         pictogram_size := d.pictogram_size.getD 0 }

/-- The rewritten output buffer has the same length as the output buffer passed in. -/
lemma Attenuate.renderBuf_length (a : Attenuate) :
    ∀ (input output : List Frame), (a.renderBuf input output).length = output.length
  | [], _ => rfl
  | _ :: _, [] => rfl
  | (_, _) :: irest, _ :: os => by
      simp [Attenuate.renderBuf, Attenuate.renderBuf_length a irest os]

/-- Inside the zipped range, each output frame is the input frame scaled by the gain. -/
lemma Attenuate.renderBuf_getD_lt (a : Attenuate) :
    ∀ (input output : List Frame) (k : Nat), k < input.length → k < output.length →
      (a.renderBuf input output).getD k (0, 0)
        = ((input.getD k (0, 0)).1 * a.gain, (input.getD k (0, 0)).2 * a.gain)
  | [], _, _, hk, _ => absurd hk (by simp)
  | _ :: _, [], _, _, hk => absurd hk (by simp)
  | (_, _) :: _, _ :: _, 0, _, _ => by simp [Attenuate.renderBuf]
  | (il, ir) :: irest, o :: os, k + 1, hk1, hk2 => by
      have ih := Attenuate.renderBuf_getD_lt a irest os k
        (by simpa using Nat.lt_of_succ_lt_succ hk1) (by simpa using Nat.lt_of_succ_lt_succ hk2)
      simpa [Attenuate.renderBuf] using ih

/-- Beyond the zipped range, the output buffer is left unchanged. -/
lemma Attenuate.renderBuf_getD_ge (a : Attenuate) :
    ∀ (input output : List Frame) (k : Nat), min input.length output.length ≤ k →
      (a.renderBuf input output).getD k (0, 0) = output.getD k (0, 0)
  | [], _, _, _ => rfl
  | _ :: _, [], _, _ => by simp [Attenuate.renderBuf]
  | (il, ir) :: irest, o :: os, 0, hk => by
      exact absurd hk (by simp)
  | (il, ir) :: irest, o :: os, k + 1, hk => by
      have hk' : min irest.length os.length ≤ k := by
        simp only [List.length_cons, Nat.succ_min_succ] at hk
        omega
      have ih := Attenuate.renderBuf_getD_ge a irest os k hk'
      simpa [Attenuate.renderBuf] using ih

/-- When the two buffers have equal length, rendering maps the scaling over the
whole input buffer. -/
lemma Attenuate.renderBuf_eq_map (a : Attenuate) :
    ∀ (input output : List Frame), input.length = output.length →
      a.renderBuf input output = input.map fun f => (f.1 * a.gain, f.2 * a.gain)
  | [], [], _ => rfl
  | [], _ :: _, h => absurd h (by simp)
  | _ :: _, [], h => absurd h (by simp)
  | (il, ir) :: irest, o :: os, h => by
      simp [Attenuate.renderBuf, Attenuate.renderBuf_eq_map a irest os (by simpa using h)]

/-- The spec scenario input buffer `[(1.0, 1.0), (0.5, -0.5)]`. -/
def exInput : List Frame := [(1, 1), (1 / 2, -(1 / 2))]

/-- A two-frame zero buffer used as a pre-sized output buffer. -/
def exZero2 : List Frame := [(0, 0), (0, 0)]

/-- A three-frame input buffer with arbitrary nonzero content. -/
def exInput3 : List Frame := [(1, 2), (-3, 4), (5, 6)]

/-- A three-frame output buffer with nonzero initial content. -/
def exOut3 : List Frame := [(7, 7), (8, 8), (9, 9)]

/-- C1: for every gain `g ≥ 0` and every pair of input/output buffers of equal
length `N`, `Attenuate { gain := g }.render input output` sets, for every index
`i < N`, `output[i].left = input[i].left * g` and
`output[i].right = input[i].right * g`. -/
theorem attenuate_render_spec (g : ℚ) (input output : List Frame)
    (_hg : 0 ≤ g) (hlen : input.length = output.length) :
    ∀ i < input.length,
      ((Attenuate.mk g).render input output).2.getD i (0, 0)
        = ((input.getD i (0, 0)).1 * g, (input.getD i (0, 0)).2 * g) := by
  intro i hi
  exact Attenuate.renderBuf_getD_lt (Attenuate.mk g) input output i hi (hlen ▸ hi)

/-- Witness for C1: gain 2 on the spec scenario buffer, index 0. -/
theorem attenuate_render_spec_witness :
    (0 : ℚ) ≤ 2 ∧ exInput.length = exZero2.length ∧ 0 < exInput.length ∧
      ((Attenuate.mk 2).render exInput exZero2).2.getD 0 (0, 0)
        = ((exInput.getD 0 (0, 0)).1 * 2, (exInput.getD 0 (0, 0)).2 * 2) :=
  ⟨by norm_num, rfl, by decide,
    attenuate_render_spec 2 exInput exZero2 (by norm_num) rfl 0 (by decide)⟩

/-- C3: a negative gain supplied to `Attenuate::new` or to the gain setter is
clamped to 0 (construction and mutation are never rejected); a non-negative
gain is stored unchanged. -/
theorem attenuate_new_clamps (a : Attenuate) (g : ℚ) :
    (g < 0 → (Attenuate.new g).gain = 0 ∧ (a.set_gain g).gain = 0) ∧
    (0 ≤ g → (Attenuate.new g).gain = g ∧ (a.set_gain g).gain = g) := by
  constructor
  · intro h
    constructor <;> simp [Attenuate.new, Attenuate.set_gain, max_eq_right (le_of_lt h)]
  · intro h
    constructor <;> simp [Attenuate.new, Attenuate.set_gain, max_eq_left h]

/-- Witness for C3 at gains `-5` (clamped) and `3` (kept). -/
theorem attenuate_new_clamps_witness :
    ((-5 : ℚ) < 0 ∧ (Attenuate.new (-5)).gain = 0 ∧ (Attenuate.default.set_gain (-5)).gain = 0) ∧
    ((0 : ℚ) ≤ 3 ∧ (Attenuate.new 3).gain = 3 ∧ (Attenuate.default.set_gain 3).gain = 3) :=
  ⟨⟨by norm_num, (attenuate_new_clamps Attenuate.default (-5)).1 (by norm_num)⟩,
   ⟨by norm_num, (attenuate_new_clamps Attenuate.default 3).2 (by norm_num)⟩⟩

/-- C9: `Attenuate` is stateless — `render` returns the effect value (its gain
field) unchanged, so a second render call on the returned value with the same
buffers produces the same output. -/
theorem attenuate_render_stateless (a : Attenuate) (input output : List Frame) :
    (a.render input output).1 = a ∧
    ((a.render input output).1.render input output).2 = (a.render input output).2 :=
  ⟨rfl, rfl⟩

/-- C7: `Attenuate::new(-5.0)` clamps the gain to 0, and rendering any
three-frame input into a three-frame output buffer yields three zero frames,
whatever the input frame values are (in the exact-arithmetic model of `f32`). -/
theorem attenuate_clamped_zero_render (input output : List Frame)
    (hi : input.length = 3) (ho : output.length = 3) :
    ((Attenuate.new (-5)).render input output).2 = [(0, 0), (0, 0), (0, 0)] := by
  show (Attenuate.new (-5)).renderBuf input output = _
  rw [Attenuate.renderBuf_eq_map _ input output (by omega)]
  have hg : (Attenuate.new (-5)).gain = 0 := by simp [Attenuate.new]
  simp only [hg, mul_zero]
  rw [List.map_const', hi]
  rfl

/-- Witness for C7 with concrete nonzero three-frame buffers. -/
theorem attenuate_clamped_zero_render_witness :
    exInput3.length = 3 ∧ exOut3.length = 3 ∧
      ((Attenuate.new (-5)).render exInput3 exOut3).2 = [(0, 0), (0, 0), (0, 0)] :=
  ⟨rfl, rfl, attenuate_clamped_zero_render exInput3 exOut3 rfl rfl⟩

/-- C2: the uniform `Effect::render` entry point is an exhaustive match over
all eight variants, and for every variant it produces exactly what that
variant's own `render` produces on the same buffers (same updated variant
state, bit-identical output buffer). -/
theorem effect_render_dispatch {ρ lp hp bp ap ls hs : Type} [EffectRenderTrait ρ]
    [EffectRenderTrait lp] [EffectRenderTrait hp] [EffectRenderTrait bp] [EffectRenderTrait ap]
    [EffectRenderTrait ls] [EffectRenderTrait hs] (input output : List Frame) :
    (∀ v : Attenuate,
      (Effect.Attenuate v : Effect ρ lp hp bp ap ls hs).render input output
        = (Effect.Attenuate (EffectRenderTrait.render v input output).1,
           (EffectRenderTrait.render v input output).2)) ∧
    (∀ v : ρ,
      (Effect.Reverb v : Effect ρ lp hp bp ap ls hs).render input output
        = (Effect.Reverb (EffectRenderTrait.render v input output).1,
           (EffectRenderTrait.render v input output).2)) ∧
    (∀ v : lp,
      (Effect.LowPassFilter v : Effect ρ lp hp bp ap ls hs).render input output
        = (Effect.LowPassFilter (EffectRenderTrait.render v input output).1,
           (EffectRenderTrait.render v input output).2)) ∧
    (∀ v : hp,
      (Effect.HighPassFilter v : Effect ρ lp hp bp ap ls hs).render input output
        = (Effect.HighPassFilter (EffectRenderTrait.render v input output).1,
           (EffectRenderTrait.render v input output).2)) ∧
    (∀ v : bp,
      (Effect.BandPassFilter v : Effect ρ lp hp bp ap ls hs).render input output
        = (Effect.BandPassFilter (EffectRenderTrait.render v input output).1,
           (EffectRenderTrait.render v input output).2)) ∧
    (∀ v : ap,
      (Effect.AllPassFilter v : Effect ρ lp hp bp ap ls hs).render input output
        = (Effect.AllPassFilter (EffectRenderTrait.render v input output).1,
           (EffectRenderTrait.render v input output).2)) ∧
    (∀ v : ls,
      (Effect.LowShelfFilter v : Effect ρ lp hp bp ap ls hs).render input output
        = (Effect.LowShelfFilter (EffectRenderTrait.render v input output).1,
           (EffectRenderTrait.render v input output).2)) ∧
    (∀ v : hs,
      (Effect.HighShelfFilter v : Effect ρ lp hp bp ap ls hs).render input output
        = (Effect.HighShelfFilter (EffectRenderTrait.render v input output).1,
           (EffectRenderTrait.render v input output).2)) :=
  ⟨fun _ => rfl, fun _ => rfl, fun _ => rfl, fun _ => rfl,
   fun _ => rfl, fun _ => rfl, fun _ => rfl, fun _ => rfl⟩

/-- A trivial pass-through renderer, used only to instantiate the abstract
variant payload types on concrete examples. -/
instance instRenderUnit : EffectRenderTrait Unit := ⟨fun v _ output => (v, output)⟩

/-- C4: the default-constructed `Effect` is the `Attenuate` variant with gain
exactly 1, and rendering any buffer through it into an equal-length output
buffer is the identity transform. -/
theorem effect_default_identity {ρ lp hp bp ap ls hs : Type} [EffectRenderTrait ρ]
    [EffectRenderTrait lp] [EffectRenderTrait hp] [EffectRenderTrait bp] [EffectRenderTrait ap]
    [EffectRenderTrait ls] [EffectRenderTrait hs] :
    (Effect.default : Effect ρ lp hp bp ap ls hs) = Effect.Attenuate (Attenuate.mk 1) ∧
    ∀ (input output : List Frame), input.length = output.length →
      ((Effect.default : Effect ρ lp hp bp ap ls hs).render input output).2 = input := by
  refine ⟨rfl, fun input output hlen => ?_⟩
  show Attenuate.default.renderBuf input output = input
  rw [Attenuate.renderBuf_eq_map _ input output hlen]
  simp [Attenuate.default]

/-- Witness for C4 on concrete equal-length buffers. -/
theorem effect_default_identity_witness :
    exInput.length = exZero2.length ∧
      ((Effect.default : Effect Unit Unit Unit Unit Unit Unit Unit).render exInput exZero2).2
        = exInput :=
  ⟨rfl, effect_default_identity.2 exInput exZero2 rfl⟩

/-- C6: `EffectWrapper`'s visit delegates entirely to the wrapped `Effect`:
the visitor/result outcome equals that of visiting the inner `Effect` directly
under the same name key, and the updated wrapper merely wraps the updated
inner `Effect` — the wrapper is invisible in the serialized representation. -/
theorem effectWrapper_visit_delegates {V R ρ lp hp bp ap ls hs : Type}
    [Visit V R (Effect ρ lp hp bp ap ls hs)]
    (w : EffectWrapper ρ lp hp bp ap ls hs) (name : String) (visitor : V) :
    (EffectWrapper.visit (R := R) w name visitor).2
        = (Visit.visit (R := R) w.eff name visitor).2 ∧
    (EffectWrapper.visit (R := R) w name visitor).1
        = EffectWrapper.mk (Visit.visit (R := R) w.eff name visitor).1 :=
  ⟨rfl, rfl⟩

/-- C10: `Attenuate::render` (and `Effect::render` dispatching to it) is total
over buffers of any lengths: the output buffer keeps its length, every index
below `min (length input) (length output)` is written with the scaled input
frame, every output index at or beyond that minimum is left unchanged, and the
dispatched `Effect::render` yields the same output buffer. -/
theorem attenuate_render_total {ρ lp hp bp ap ls hs : Type} [EffectRenderTrait ρ]
    [EffectRenderTrait lp] [EffectRenderTrait hp] [EffectRenderTrait bp] [EffectRenderTrait ap]
    [EffectRenderTrait ls] [EffectRenderTrait hs]
    (a : Attenuate) (input output : List Frame) :
    ((a.render input output).2).length = output.length ∧
    (∀ k, k < input.length → k < output.length →
      ((a.render input output).2).getD k (0, 0)
        = ((input.getD k (0, 0)).1 * a.gain, (input.getD k (0, 0)).2 * a.gain)) ∧
    (∀ k, min input.length output.length ≤ k →
      ((a.render input output).2).getD k (0, 0) = output.getD k (0, 0)) ∧
    ((Effect.Attenuate a : Effect ρ lp hp bp ap ls hs).render input output).2
      = (a.render input output).2 :=
  ⟨Attenuate.renderBuf_length a input output,
   fun k h1 h2 => Attenuate.renderBuf_getD_lt a input output k h1 h2,
   fun k h => Attenuate.renderBuf_getD_ge a input output k h,
   rfl⟩

/-- Witness for C10 with a length-2 input and a length-3 output buffer: index 1
lies in the zipped range and is written, index 2 is beyond it and keeps the
output buffer's old frame. -/
theorem attenuate_render_total_witness :
    (1 < exInput.length ∧ 1 < exOut3.length ∧
      ((Attenuate.mk 2).render exInput exOut3).2.getD 1 (0, 0)
        = ((exInput.getD 1 (0, 0)).1 * (Attenuate.mk 2).gain,
           (exInput.getD 1 (0, 0)).2 * (Attenuate.mk 2).gain)) ∧
    (min exInput.length exOut3.length ≤ 2 ∧
      ((Attenuate.mk 2).render exInput exOut3).2.getD 2 (0, 0) = exOut3.getD 2 (0, 0)) :=
  ⟨⟨by decide, by decide,
    (@attenuate_render_total Unit Unit Unit Unit Unit Unit Unit _ _ _ _ _ _ _
      (Attenuate.mk 2) exInput exOut3).2.1 1 (by decide) (by decide)⟩,
   ⟨by decide,
    (@attenuate_render_total Unit Unit Unit Unit Unit Unit Unit _ _ _ _ _ _ _
      (Attenuate.mk 2) exInput exOut3).2.2.1 2 (by decide)⟩⟩

/-- C5 counterexample: persistence load writes the stored gain value as-is,
without re-clamping (clamping happens only at construction and mutation), so
loading data that holds a negative gain yields an `Attenuate` violating the
`gain ≥ 0` invariant. -/
theorem attenuate_invariant_cex :
    ¬ 0 ≤ (Attenuate.default.loadFrom (some (-1))).gain := by decide

/-- C5 amended: the invariant `gain ≥ 0` holds after `Attenuate::new`, after
default construction, after the gain setter, and is preserved by `render`
(which leaves the gain unchanged); persistence load preserves it provided the
loaded data's gain value, when present, is itself non-negative. -/
theorem attenuate_gain_invariant (a : Attenuate) (g : ℚ) (input output : List Frame)
    (saved : Option ℚ) :
    0 ≤ (Attenuate.new g).gain ∧
    0 ≤ Attenuate.default.gain ∧
    0 ≤ (a.set_gain g).gain ∧
    (a.render input output).1.gain = a.gain ∧
    (0 ≤ a.gain → (∀ x, saved = some x → 0 ≤ x) → 0 ≤ (a.loadFrom saved).gain) := by
  refine ⟨?_, ?_, ?_, rfl, ?_⟩
  · simp [Attenuate.new]
  · norm_num [Attenuate.default]
  · simp [Attenuate.set_gain]
  · intro ha hs
    cases saved with
    | none => simpa [Attenuate.loadFrom] using ha
    | some x => simpa [Attenuate.loadFrom] using hs x rfl

/-- Witness for the amended C5 at a concrete well-formed load. -/
theorem attenuate_gain_invariant_witness :
    0 ≤ Attenuate.default.gain ∧ (∀ x : ℚ, some (2 : ℚ) = some x → 0 ≤ x) ∧
      0 ≤ (Attenuate.default.loadFrom (some 2)).gain :=
  ⟨by decide, fun x hx => by rw [Option.some_inj] at hx; rw [← hx]; norm_num,
   (attenuate_gain_invariant Attenuate.default 1 [] [] (some 2)).2.2.2.2 (by decide)
     (fun x hx => by rw [Option.some_inj] at hx; rw [← hx]; norm_num)⟩

/-- C8: loading data saved by an older version in which a field is absent
succeeds, and the missing field takes its default value: the
`#[serde(default)]`-marked fields of `DebuggingSettings` default while the
present mandatory fields are kept, and an `Attenuate` whose gain is absent
from the saved data keeps its default gain rather than failing to load. -/
theorem load_missing_fields_default (sp sb st : Bool) :
    DebuggingSettings.deserialize
        { show_physics := some sp, show_bounds := some sb, show_tbn := some st,
          show_light_bounds := none, show_camera_bounds := none, pictogram_size := none }
      = some { show_physics := sp, show_bounds := sb, show_tbn := st,
               show_light_bounds := false, show_camera_bounds := false, pictogram_size := 0 } ∧
    Attenuate.default.loadFrom none = Attenuate.default :=
  ⟨rfl, rfl⟩
